import Mathlib

/-!
Shallow embedding of the MH-Z19 CO2 sensor driver (`src/mhz19.rs`).

Bytes are modelled as `Nat` values below 256; wrapping u8 arithmetic is
explicit `% 256`.  The embedded-hal serial transport (`Read<u8> + Write<u8>`
with `nb::block!`) is modelled as a state-passing record `Serial σ`: each
operation either returns the next state (and the byte read) or a transport
error.  The driver struct `Mhz19` carries the transport state and the 9-byte
scratch buffer, and every fallible operation returns `Except Errors`.
-/

deriving instance DecidableEq for Except

namespace MhZ19

/-- The command opcodes of the driver (enum `Commands` in the source). -/
inductive Commands where
  | ReadConcentration
  | CalibrateZeroPoint
  | CalibrateSpanPoint
  | AutoCalibration
  | SetRange
deriving DecidableEq

/-- Numeric value of each opcode (`#[repr(u8)]` discriminants in the source). -/
def Commands.toByte : Commands → Nat
  | .ReadConcentration => 0x86
  | .CalibrateZeroPoint => 0x87
  | .CalibrateSpanPoint => 0x88
  | .AutoCalibration => 0x79
  | .SetRange => 0x99

/-- The detection-range values (enum `Range` in the source). -/
inductive Range where
  | _1000
  | _2000
  | _3000
  | _5000
  | _10000
deriving DecidableEq

/-- The driver's error classification (enum `Errors` in the source). -/
inductive Errors where
  | Write
  | Read
  | Checksum
deriving DecidableEq

/-- Auto-calibration switch (enum `AutoCalibrationState` in the source). -/
inductive AutoCalibrationState where
  | Enable
  | Disable
deriving DecidableEq

/-- Wrapping u8 addition (`overflowing_add` in the source, value component). -/
def wrapAdd (a b : Nat) : Nat := (a + b) % 256

/-- Wrapping u8 subtraction (`overflowing_sub` in the source, value
component); `b` is a byte, so adding 256 before subtracting avoids
truncated `Nat` subtraction. -/
def wrapSub (a b : Nat) : Nat := (a + 256 - b) % 256

/-- Model of `fn checksum(data: &[u8]) -> u8`: fold wrapping addition over
the data starting from 0, then wrapping-subtract the result from 255. -/
def checksum (data : List Nat) : Nat :=
  wrapSub 255 (data.foldl wrapAdd 0)

/-- The transport contract (`Read<u8> + Write<u8>` with `nb::block!`):
a blocking single-byte write and a blocking single-byte read over an
abstract transport state `σ`; `Except.error` is a transport error. -/
structure Serial (σ : Type) where
  write : σ → Nat → Except Unit σ
  read : σ → Except Unit (Nat × σ)

def BUFFER_SIZE : Nat := 9

/-- The driver struct `Mhz19`: the owned transport state and the 9-byte
scratch buffer. -/
structure Mhz19 (σ : Type) where
  serial : σ
  buffer : List Nat
deriving DecidableEq

/-- `Mhz19::new`: zero-filled buffer. -/
def Mhz19.new {σ : Type} (s : σ) : Mhz19 σ := ⟨s, List.replicate BUFFER_SIZE 0⟩

/-- Write a list of bytes one at a time, stopping at the first transport
error (the `for`/`nb::block!` loop in `fn command`). -/
def writeAll {σ : Type} (S : Serial σ) : List Nat → σ → Except Unit σ
  | [], s => .ok s
  | b :: rest, s =>
    match S.write s b with
    | .error e => .error e
    | .ok s' => writeAll S rest s'

/-- The buffer-assembly step of `fn command` (source lines 94-108): fill the
buffer with `FF 01 cmd data[0..5] 00`, then overwrite the last byte with the
checksum of the first eight. -/
def buildFrame (cmd : Nat) (data : List Nat) : List Nat :=
  let buf : List Nat :=
    [0xFF, 0x01, cmd, data.getD 0 0, data.getD 1 0, data.getD 2 0,
      data.getD 3 0, data.getD 4 0, 0x00]
  let crcIndex := BUFFER_SIZE - 1
  buf.set crcIndex (checksum (buf.take crcIndex))

/-- Model of `fn command(&mut self, cmd: u8, data: [u8; 5])`: assemble the
frame in the buffer, then write all nine bytes one at a time; a failed write
is `Errors.Write`. -/
def Mhz19.command {σ : Type} (S : Serial σ) (m : Mhz19 σ) (cmd : Nat)
    (data : List Nat) : Except Errors (Mhz19 σ) :=
  let buf := buildFrame cmd data
  match writeAll S buf m.serial with
  | .error _ => .error Errors.Write
  | .ok s' => .ok ⟨s', buf⟩

/-- Read `n` bytes one at a time, stopping at the first transport error
(the read loop in `fn response`). -/
def readAll {σ : Type} (S : Serial σ) : Nat → σ → Except Unit (List Nat × σ)
  | 0, s => .ok ([], s)
  | n + 1, s =>
    match S.read s with
    | .error e => .error e
    | .ok (b, s') =>
      match readAll S n s' with
      | .error e => .error e
      | .ok (bs, s'') => .ok (b :: bs, s'')

/-- Model of `fn response(&mut self)`: read 9 bytes into the buffer (a failed
read is `Errors.Read`), then require the checksum of the first eight bytes to
equal the ninth (`Errors.Checksum` otherwise). -/
def Mhz19.response {σ : Type} (S : Serial σ) (m : Mhz19 σ) :
    Except Errors (Mhz19 σ) :=
  match readAll S BUFFER_SIZE m.serial with
  | .error _ => .error Errors.Read
  | .ok (buf, s') =>
    let crcIndex := BUFFER_SIZE - 1
    if checksum (buf.take crcIndex) ≠ buf.getD crcIndex 0 then
      .error Errors.Checksum
    else
      .ok ⟨s', buf⟩

/-- Model of `fn co2(&mut self)`: send the read-concentration command with an
all-zero payload, read and validate the response, then return
`(buffer[2] as u16) << 8 | buffer[3] as u16`. -/
def Mhz19.co2 {σ : Type} (S : Serial σ) (m : Mhz19 σ) :
    Except Errors (Nat × Mhz19 σ) :=
  match m.command S Commands.ReadConcentration.toByte [0, 0, 0, 0, 0] with
  | .error e => .error e
  | .ok m1 =>
    match m1.response S with
    | .error e => .error e
    | .ok m2 => .ok (((m2.buffer.getD 2 0) <<< 8) ||| (m2.buffer.getD 3 0), m2)

/-- Payload byte 0 of `fn auto_calibration` (the `match state` in the source):
0xA0 for Enable, 0x00 for Disable. -/
def AutoCalibrationState.toByte : AutoCalibrationState → Nat
  | .Enable => 0xA0
  | .Disable => 0x00

/-- Model of `fn auto_calibration(&mut self, state)`: payload byte 0 per the
state, remaining four bytes zero; sends opcode 0x79 and returns `command`'s
result unchanged. -/
def Mhz19.auto_calibration {σ : Type} (S : Serial σ) (m : Mhz19 σ)
    (state : AutoCalibrationState) : Except Errors (Mhz19 σ) :=
  let stateByte : Nat := state.toByte
  m.command S Commands.AutoCalibration.toByte [stateByte, 0, 0, 0, 0]

/-- The 5-byte payload of `fn range` (the `match range` in the source). -/
def Range.data : Range → List Nat
  | ._1000 => [0x00, 0x00, 0x00, 0x03, 0xE8]
  | ._2000 => [0x00, 0x00, 0x00, 0x07, 0xD0]
  | ._3000 => [0x00, 0x00, 0x00, 0x0B, 0xB8]
  | ._5000 => [0x00, 0x00, 0x00, 0x13, 0x88]
  | ._10000 => [0x00, 0x00, 0x00, 0x27, 0x10]

/-- Model of `fn range(&mut self, range)`: fixed 5-byte payload per `Range`
variant; sends opcode 0x99 and returns `command`'s result unchanged. -/
def Mhz19.range {σ : Type} (S : Serial σ) (m : Mhz19 σ) (r : Range) :
    Except Errors (Mhz19 σ) :=
  let data : List Nat := r.data
  m.command S Commands.SetRange.toByte data

/-- In-memory transport for concrete runs: the state is a pair of the write
log and the queue of bytes still to be served to reads; a read on an empty
queue is a transport error. -/
def feedSerial : Serial (List Nat × List Nat) where
  write s b := .ok (s.1 ++ [b], s.2)
  read s :=
    match s.2 with
    | [] => .error ()
    | b :: rest => .ok (b, (s.1, rest))

/-! Helper lemmas about the checksum arithmetic and concrete transport runs. -/

theorem foldl_wrapAdd (l : List Nat) : ∀ a : Nat, a < 256 →
    l.foldl wrapAdd a = (a + l.sum) % 256 := by
  induction l with
  | nil => intro a ha; simp [Nat.mod_eq_of_lt ha]
  | cons b t ih =>
    intro a ha
    simp only [List.foldl_cons, List.sum_cons]
    rw [show wrapAdd a b = (a + b) % 256 from rfl,
      ih _ (Nat.mod_lt _ (by norm_num))]
    omega

theorem checksum_eq_sub (l : List Nat) : checksum l = 255 - l.sum % 256 := by
  unfold checksum wrapSub
  rw [foldl_wrapAdd l 0 (by norm_num)]
  omega

theorem checksum_lt (l : List Nat) : checksum l < 256 := by
  rw [checksum_eq_sub]; omega

theorem writeAll_feed (bs : List Nat) : ∀ w r : List Nat,
    writeAll feedSerial bs (w, r) = .ok (w ++ bs, r) := by
  induction bs with
  | nil => intro w r; simp [writeAll]
  | cons b t ih =>
    intro w r
    rw [show writeAll feedSerial (b :: t) (w, r)
        = writeAll feedSerial t (w ++ [b], r) from rfl, ih]
    simp

theorem readAll_feed (r : List Nat) : ∀ w : List Nat,
    readAll feedSerial r.length (w, r) = .ok (r, (w, [])) := by
  induction r with
  | nil => intro w; simp [readAll]
  | cons b t ih =>
    intro w
    have hread : feedSerial.read (w, b :: t) = .ok (b, (w, t)) := rfl
    simp only [List.length_cons, readAll, hread, ih w]

theorem readAll_feed9 (w r : List Nat) (h : r.length = 9) :
    readAll feedSerial 9 (w, r) = .ok (r, (w, [])) := by
  rw [← h]; exact readAll_feed r w

theorem response_feed (w r buf : List Nat) (h : r.length = 9) :
    Mhz19.response feedSerial ⟨(w, r), buf⟩ =
      if checksum (r.take 8) = r.getD 8 0 then .ok ⟨(w, []), r⟩
      else .error Errors.Checksum := by
  simp only [Mhz19.response, BUFFER_SIZE]
  rw [readAll_feed9 w r h]
  by_cases hc : checksum (r.take 8) = r.getD 8 0 <;> simp [hc]

theorem command_feed (w r buf : List Nat) (cmd : Nat) (data : List Nat) :
    Mhz19.command feedSerial ⟨(w, r), buf⟩ cmd data =
      .ok ⟨(w ++ buildFrame cmd data, r), buildFrame cmd data⟩ := by
  simp only [Mhz19.command]
  rw [writeAll_feed]

theorem writeAll_read_irrel {σ : Type} (wr : σ → Nat → Except Unit σ)
    (rd rd' : σ → Except Unit (Nat × σ)) (bs : List Nat) : ∀ s : σ,
    writeAll ⟨wr, rd⟩ bs s = writeAll ⟨wr, rd'⟩ bs s := by
  induction bs with
  | nil => intro s; rfl
  | cons b t ih =>
    intro s
    cases h : wr s b with
    | error e => simp only [writeAll, h]
    | ok s' => simp only [writeAll, h, ih s']

theorem command_read_irrel {σ : Type} (wr : σ → Nat → Except Unit σ)
    (rd rd' : σ → Except Unit (Nat × σ)) (m : Mhz19 σ) (cmd : Nat)
    (data : List Nat) :
    Mhz19.command ⟨wr, rd⟩ m cmd data = Mhz19.command ⟨wr, rd'⟩ m cmd data := by
  simp only [Mhz19.command]
  rw [writeAll_read_irrel wr rd rd']

theorem writeAll_ok {σ : Type} (S : Serial σ)
    (hw : ∀ s b, ∃ s', S.write s b = .ok s') (bs : List Nat) :
    ∀ s : σ, ∃ s', writeAll S bs s = .ok s' := by
  induction bs with
  | nil => intro s; exact ⟨s, rfl⟩
  | cons b t ih =>
    intro s
    obtain ⟨s1, h1⟩ := hw s b
    obtain ⟨s2, h2⟩ := ih s1
    exact ⟨s2, by simp only [writeAll, h1, h2]⟩

theorem command_ok_or_write {σ : Type} (S : Serial σ) (m : Mhz19 σ)
    (cmd : Nat) (data : List Nat) :
    (∃ m', Mhz19.command S m cmd data = .ok m') ∨
      Mhz19.command S m cmd data = .error Errors.Write := by
  simp only [Mhz19.command]
  cases h : writeAll S (buildFrame cmd data) m.serial with
  | error e => right; rfl
  | ok s' => left; exact ⟨⟨s', buildFrame cmd data⟩, rfl⟩

theorem command_write_ok {σ : Type} (S : Serial σ) (m : Mhz19 σ)
    (cmd : Nat) (data : List Nat)
    (hw : ∀ s b, ∃ s', S.write s b = .ok s') :
    Mhz19.command S m cmd data
      = .ok ⟨(writeAll S (buildFrame cmd data) m.serial).toOption.getD m.serial,
          buildFrame cmd data⟩ := by
  obtain ⟨s', h⟩ := writeAll_ok S hw (buildFrame cmd data) m.serial
  simp only [Mhz19.command]
  rw [h]
  simp [Except.toOption]

theorem xor_two_pow_ne (b i : Nat) : b ^^^ 2 ^ i ≠ b := by
  intro h
  have hpos : 0 < 2 ^ i := pow_pos (by norm_num) i
  have h0 : 2 ^ i = 0 := by
    conv_lhs => rw [← Nat.xor_cancel_left b (2 ^ i)]
    rw [h, Nat.xor_self]
  omega

theorem xor_byte_lt (b i : Nat) (hb : b < 256) (hi : i < 8) :
    b ^^^ 2 ^ i < 256 := by
  have h1 : b < 2 ^ 8 := by norm_num [hb]
  have h2 : 2 ^ i < 2 ^ 8 := Nat.pow_lt_pow_right (by norm_num) hi
  have h3 := Nat.xor_lt_two_pow h1 h2
  norm_num at h3
  exact h3

theorem response_feed_new (r : List Nat) (h : r.length = 9) :
    Mhz19.response feedSerial (Mhz19.new (([], r) : List Nat × List Nat)) =
      if checksum (r.take 8) = r.getD 8 0 then .ok ⟨([], []), r⟩
      else .error Errors.Checksum :=
  response_feed [] r _ h

theorem command_ne_read_checksum {σ : Type} (S : Serial σ) (m : Mhz19 σ)
    (cmd : Nat) (data : List Nat) :
    Mhz19.command S m cmd data ≠ .error Errors.Read ∧
      Mhz19.command S m cmd data ≠ .error Errors.Checksum := by
  rcases command_ok_or_write S m cmd data with ⟨m', h⟩ | h <;> rw [h] <;>
    exact ⟨by simp, by simp⟩

theorem auto_calibration_eq_command {σ : Type} (S : Serial σ) (m : Mhz19 σ)
    (st : AutoCalibrationState) :
    Mhz19.auto_calibration S m st
      = Mhz19.command S m Commands.AutoCalibration.toByte
          [st.toByte, 0, 0, 0, 0] := rfl

theorem range_eq_command {σ : Type} (S : Serial σ) (m : Mhz19 σ) (r : Range) :
    Mhz19.range S m r = Mhz19.command S m Commands.SetRange.toByte r.data := rfl

theorem beconcat (hi lo : Nat) (hlo : lo < 256) :
    (hi <<< 8) ||| lo = hi * 256 + lo := by
  have hlo' : lo < 2 ^ 8 := by norm_num [hlo]
  have h := Nat.mul_add_lt_is_or (i := 8) hlo' hi
  rw [Nat.shiftLeft_eq]
  calc hi * 2 ^ 8 ||| lo = 2 ^ 8 * hi ||| lo := by rw [Nat.mul_comm]
    _ = 2 ^ 8 * hi + lo := h.symm
    _ = hi * 256 + lo := by norm_num [Nat.mul_comm]

theorem co2_feed (r : List Nat) (hlen : r.length = 9) :
    Mhz19.co2 feedSerial (Mhz19.new (([], r) : List Nat × List Nat))
      = if checksum (r.take 8) = r.getD 8 0
        then .ok (((r.getD 2 0) <<< 8) ||| r.getD 3 0,
            ⟨([0xFF, 0x01, 0x86, 0, 0, 0, 0, 0, 0x79], []), r⟩)
        else .error Errors.Checksum := by
  have hbf : buildFrame Commands.ReadConcentration.toByte [0, 0, 0, 0, 0]
      = [0xFF, 0x01, 0x86, 0, 0, 0, 0, 0, 0x79] := by decide
  simp only [Mhz19.co2, Mhz19.new, BUFFER_SIZE, command_feed, List.nil_append,
    hbf]
  rw [response_feed _ _ _ hlen]
  by_cases hc : checksum (r.take 8) = r.getD 8 0
  · rw [if_pos hc, if_pos hc]
  · rw [if_neg hc, if_neg hc]

/-! Claim theorems. -/

/-- Claim C4: for every byte sequence of any length, `checksum` returns the
single byte `255 - (sum of the bytes mod 256)`; it is a total, pure function
(no overflow error) and its result is always a byte. -/
theorem claim_C4_checksum_formula (l : List Nat) (_hb : ∀ b ∈ l, b < 256) :
    checksum l = 255 - l.sum % 256 ∧ checksum l < 256 :=
  ⟨checksum_eq_sub l, checksum_lt l⟩

/-- Witness for C4 at the datasheet frame prefix `FF 01 86 00 00 00 00 00`. -/
theorem claim_C4_witness :
    (∀ b ∈ ([0xFF, 0x01, 0x86, 0, 0, 0, 0, 0] : List Nat), b < 256) ∧
      (checksum ([0xFF, 0x01, 0x86, 0, 0, 0, 0, 0] : List Nat)
          = 255 - ([0xFF, 0x01, 0x86, 0, 0, 0, 0, 0] : List Nat).sum % 256 ∧
        checksum ([0xFF, 0x01, 0x86, 0, 0, 0, 0, 0] : List Nat) < 256) :=
  ⟨by decide, claim_C4_checksum_formula _ (by decide)⟩

/-- Counterexample to claim C3: on the datasheet frame prefix
`FF 01 86 00 00 00 00 00` (sum 390) the checksum is 0x79 = 121, so
sum + checksum ≡ 255 (mod 256), not 0, and the claimed value
`(256 - sum % 256) % 256 = 122` differs from the actual one. -/
theorem claim_C3_counterexample :
    checksum ([0xFF, 0x01, 0x86, 0, 0, 0, 0, 0] : List Nat) = 121 ∧
      (([0xFF, 0x01, 0x86, 0, 0, 0, 0, 0] : List Nat).sum
          + checksum ([0xFF, 0x01, 0x86, 0, 0, 0, 0, 0] : List Nat)) % 256 = 255 ∧
      (256 - ([0xFF, 0x01, 0x86, 0, 0, 0, 0, 0] : List Nat).sum % 256) % 256 = 122 ∧
      (255 : Nat) ≠ 0 ∧ (121 : Nat) ≠ 122 := by decide

/-- Claim C3 (amended): for all byte sequences of length 8, `checksum seq` is
the unique byte value making `sum seq + checksum seq ≡ 255 (mod 256)`;
equivalently the checksum byte equals `255 - (sum of bytes 0..7 mod 256)`. -/
theorem claim_C3_amended (l : List Nat) (_hlen : l.length = 8)
    (_hb : ∀ b ∈ l, b < 256) :
    checksum l < 256 ∧ (l.sum + checksum l) % 256 = 255 ∧
      (∀ c : Nat, c < 256 → (l.sum + c) % 256 = 255 → c = checksum l) ∧
      checksum l = 255 - l.sum % 256 := by
  have he := checksum_eq_sub l
  refine ⟨checksum_lt l, ?_, ?_, he⟩
  · rw [he]; omega
  · intro c hc hsum; rw [he]; omega

/-- Witness for the amended C3 at the datasheet frame prefix. -/
theorem claim_C3_witness :
    ([0xFF, 0x01, 0x86, 0, 0, 0, 0, 0] : List Nat).length = 8 ∧
      (∀ b ∈ ([0xFF, 0x01, 0x86, 0, 0, 0, 0, 0] : List Nat), b < 256) ∧
      (checksum ([0xFF, 0x01, 0x86, 0, 0, 0, 0, 0] : List Nat) < 256 ∧
        (([0xFF, 0x01, 0x86, 0, 0, 0, 0, 0] : List Nat).sum
            + checksum ([0xFF, 0x01, 0x86, 0, 0, 0, 0, 0] : List Nat)) % 256 = 255 ∧
        (∀ c : Nat, c < 256 →
          (([0xFF, 0x01, 0x86, 0, 0, 0, 0, 0] : List Nat).sum + c) % 256 = 255 →
          c = checksum ([0xFF, 0x01, 0x86, 0, 0, 0, 0, 0] : List Nat)) ∧
        checksum ([0xFF, 0x01, 0x86, 0, 0, 0, 0, 0] : List Nat)
          = 255 - ([0xFF, 0x01, 0x86, 0, 0, 0, 0, 0] : List Nat).sum % 256) :=
  ⟨by decide, by decide, claim_C3_amended _ (by decide) (by decide)⟩

/-- Claim C9: the encoded frame is exactly `FF 01 cmd d0 d1 d2 d3 d4` followed
by the checksum of those first eight bytes; in particular the all-zero-payload
frames for opcodes 0x86 and 0x87 end in 0x79 and 0x78, and `command` writes
exactly that frame to the transport. -/
theorem claim_C9_encode (cmd d0 d1 d2 d3 d4 : Nat) :
    buildFrame cmd [d0, d1, d2, d3, d4]
        = [0xFF, 0x01, cmd, d0, d1, d2, d3, d4,
            checksum [0xFF, 0x01, cmd, d0, d1, d2, d3, d4]] ∧
      Mhz19.command feedSerial (Mhz19.new (([], []) : List Nat × List Nat))
          cmd [d0, d1, d2, d3, d4]
        = .ok ⟨(buildFrame cmd [d0, d1, d2, d3, d4], []),
            buildFrame cmd [d0, d1, d2, d3, d4]⟩ ∧
      buildFrame 0x86 [0, 0, 0, 0, 0]
        = [0xFF, 0x01, 0x86, 0, 0, 0, 0, 0, 0x79] ∧
      buildFrame 0x87 [0, 0, 0, 0, 0]
        = [0xFF, 0x01, 0x87, 0, 0, 0, 0, 0, 0x78] := by
  refine ⟨rfl, ?_, by decide, by decide⟩
  have h := command_feed [] [] (List.replicate 9 0) cmd [d0, d1, d2, d3, d4]
  simpa using h

/-- Claim C8: for every `Range` value, `range` sends opcode 0x99 with payload
three zero bytes followed by the big-endian 16-bit range value; the five
frames below are exactly what reaches the transport (checksum included), and
the two payload tail bytes recombine to the range in ppm. -/
theorem claim_C8_range_payloads :
    (Mhz19.range feedSerial (Mhz19.new (([], []) : List Nat × List Nat))
          Range._1000
        = .ok ⟨([0xFF, 0x01, 0x99, 0x00, 0x00, 0x00, 0x03, 0xE8, 0x7B], []),
            [0xFF, 0x01, 0x99, 0x00, 0x00, 0x00, 0x03, 0xE8, 0x7B]⟩ ∧
      Mhz19.range feedSerial (Mhz19.new (([], []) : List Nat × List Nat))
          Range._2000
        = .ok ⟨([0xFF, 0x01, 0x99, 0x00, 0x00, 0x00, 0x07, 0xD0, 0x8F], []),
            [0xFF, 0x01, 0x99, 0x00, 0x00, 0x00, 0x07, 0xD0, 0x8F]⟩ ∧
      Mhz19.range feedSerial (Mhz19.new (([], []) : List Nat × List Nat))
          Range._3000
        = .ok ⟨([0xFF, 0x01, 0x99, 0x00, 0x00, 0x00, 0x0B, 0xB8, 0xA3], []),
            [0xFF, 0x01, 0x99, 0x00, 0x00, 0x00, 0x0B, 0xB8, 0xA3]⟩ ∧
      Mhz19.range feedSerial (Mhz19.new (([], []) : List Nat × List Nat))
          Range._5000
        = .ok ⟨([0xFF, 0x01, 0x99, 0x00, 0x00, 0x00, 0x13, 0x88, 0xCB], []),
            [0xFF, 0x01, 0x99, 0x00, 0x00, 0x00, 0x13, 0x88, 0xCB]⟩ ∧
      Mhz19.range feedSerial (Mhz19.new (([], []) : List Nat × List Nat))
          Range._10000
        = .ok ⟨([0xFF, 0x01, 0x99, 0x00, 0x00, 0x00, 0x27, 0x10, 0x2F], []),
            [0xFF, 0x01, 0x99, 0x00, 0x00, 0x00, 0x27, 0x10, 0x2F]⟩) ∧
      (Range.data Range._1000 = [0x00, 0x00, 0x00, 0x03, 0xE8] ∧
        Range.data Range._2000 = [0x00, 0x00, 0x00, 0x07, 0xD0] ∧
        Range.data Range._3000 = [0x00, 0x00, 0x00, 0x0B, 0xB8] ∧
        Range.data Range._5000 = [0x00, 0x00, 0x00, 0x13, 0x88] ∧
        Range.data Range._10000 = [0x00, 0x00, 0x00, 0x27, 0x10]) ∧
      (0x03 * 256 + 0xE8 = 1000 ∧ 0x07 * 256 + 0xD0 = 2000 ∧
        0x0B * 256 + 0xB8 = 3000 ∧ 0x13 * 256 + 0x88 = 5000 ∧
        0x27 * 256 + 0x10 = 10000) := by
  refine ⟨⟨?_, ?_, ?_, ?_, ?_⟩, ⟨?_, ?_, ?_, ?_, ?_⟩, ?_, ?_, ?_, ?_, ?_⟩ <;>
    decide

/-- Counterexample to claim C1: on a transport whose reads always fail (empty
feed queue) but whose writes succeed, `range` and `auto_calibration` both
return Ok even though no response frame could be read at all — calling
`response` on the resulting state yields the Read error. -/
theorem claim_C1_counterexample :
    Mhz19.range feedSerial (Mhz19.new (([], []) : List Nat × List Nat))
        Range._2000
      = .ok ⟨([0xFF, 0x01, 0x99, 0x00, 0x00, 0x00, 0x07, 0xD0, 0x8F], []),
          [0xFF, 0x01, 0x99, 0x00, 0x00, 0x00, 0x07, 0xD0, 0x8F]⟩ ∧
      Mhz19.response feedSerial
          ⟨([0xFF, 0x01, 0x99, 0x00, 0x00, 0x00, 0x07, 0xD0, 0x8F], []),
            [0xFF, 0x01, 0x99, 0x00, 0x00, 0x00, 0x07, 0xD0, 0x8F]⟩
        = .error Errors.Read ∧
      Mhz19.auto_calibration feedSerial
          (Mhz19.new (([], []) : List Nat × List Nat))
          AutoCalibrationState.Disable
        = .ok ⟨([0xFF, 0x01, 0x79, 0x00, 0x00, 0x00, 0x00, 0x00, 0x86], []),
            [0xFF, 0x01, 0x79, 0x00, 0x00, 0x00, 0x00, 0x00, 0x86]⟩ := by
  decide

/-- Claim C1 (amended): `set_auto_calibration` and `set_range` return Ok or
the Write error — never the Read or Checksum error — and their result does
not depend on the transport's read operation at all: they read back no
response frame and perform no checksum validation. -/
theorem claim_C1_amended {σ : Type} (wr : σ → Nat → Except Unit σ)
    (rd rd' : σ → Except Unit (Nat × σ)) (m : Mhz19 σ)
    (st : AutoCalibrationState) (r : Range) :
    ((∃ m', Mhz19.auto_calibration ⟨wr, rd⟩ m st = .ok m') ∨
        Mhz19.auto_calibration ⟨wr, rd⟩ m st = .error Errors.Write) ∧
      ((∃ m', Mhz19.range ⟨wr, rd⟩ m r = .ok m') ∨
        Mhz19.range ⟨wr, rd⟩ m r = .error Errors.Write) ∧
      Mhz19.auto_calibration ⟨wr, rd⟩ m st
        = Mhz19.auto_calibration ⟨wr, rd'⟩ m st ∧
      Mhz19.range ⟨wr, rd⟩ m r = Mhz19.range ⟨wr, rd'⟩ m r := by
  refine ⟨?_, ?_, ?_, ?_⟩
  · rw [auto_calibration_eq_command]; exact command_ok_or_write _ _ _ _
  · rw [range_eq_command]; exact command_ok_or_write _ _ _ _
  · rw [auto_calibration_eq_command, auto_calibration_eq_command]
    exact command_read_irrel wr rd rd' m _ _
  · rw [range_eq_command, range_eq_command]
    exact command_read_irrel wr rd rd' m _ _

/-- Claim C10: `auto_calibration` and `range` perform no transport reads —
their result is invariant under replacing the read operation — and if every
single-byte write succeeds they return Ok; the Read and Checksum error
variants are never returned by these two operations. -/
theorem claim_C10_no_reads {σ : Type} (wr : σ → Nat → Except Unit σ)
    (rd rd' : σ → Except Unit (Nat × σ)) (m : Mhz19 σ)
    (st : AutoCalibrationState) (r : Range) :
    (Mhz19.auto_calibration ⟨wr, rd⟩ m st
        = Mhz19.auto_calibration ⟨wr, rd'⟩ m st ∧
      Mhz19.range ⟨wr, rd⟩ m r = Mhz19.range ⟨wr, rd'⟩ m r) ∧
      ((∀ s b, ∃ s', wr s b = .ok s') →
        (Mhz19.auto_calibration ⟨wr, rd⟩ m st).isOk = true ∧
          (Mhz19.range ⟨wr, rd⟩ m r).isOk = true) ∧
      (Mhz19.auto_calibration ⟨wr, rd⟩ m st ≠ .error Errors.Read ∧
        Mhz19.auto_calibration ⟨wr, rd⟩ m st ≠ .error Errors.Checksum ∧
        Mhz19.range ⟨wr, rd⟩ m r ≠ .error Errors.Read ∧
        Mhz19.range ⟨wr, rd⟩ m r ≠ .error Errors.Checksum) := by
  refine ⟨⟨?_, ?_⟩, ?_, ?_, ?_, ?_, ?_⟩
  · rw [auto_calibration_eq_command, auto_calibration_eq_command]
    exact command_read_irrel wr rd rd' m _ _
  · rw [range_eq_command, range_eq_command]
    exact command_read_irrel wr rd rd' m _ _
  · intro hw
    constructor
    · rw [auto_calibration_eq_command, command_write_ok _ _ _ _ hw]; rfl
    · rw [range_eq_command, command_write_ok _ _ _ _ hw]; rfl
  · rw [auto_calibration_eq_command]
    exact (command_ne_read_checksum _ _ _ _).1
  · rw [auto_calibration_eq_command]
    exact (command_ne_read_checksum _ _ _ _).2
  · rw [range_eq_command]
    exact (command_ne_read_checksum _ _ _ _).1
  · rw [range_eq_command]
    exact (command_ne_read_checksum _ _ _ _).2

/-- Witness for C10: on the in-memory transport (all writes succeed) both
operations report success. -/
theorem claim_C10_witness :
    (Mhz19.auto_calibration feedSerial
        (Mhz19.new (([], []) : List Nat × List Nat))
        AutoCalibrationState.Enable).isOk = true ∧
      (Mhz19.range feedSerial (Mhz19.new (([], []) : List Nat × List Nat))
        Range._2000).isOk = true :=
  (claim_C10_no_reads feedSerial.write feedSerial.read feedSerial.read
      (Mhz19.new ([], [])) AutoCalibrationState.Enable Range._2000).2.1
    (fun s b => ⟨(s.1 ++ [b], s.2), rfl⟩)

/-- Counterexample to claim C2: on the spec's own test vector
`FF 01 04 04 B0 00 00 00 47` (checksum-valid), `co2` returns
0x0404 = 1028, not 1200 — the driver takes the concentration from frame
bytes at indices 2 and 3, which in this vector are 0x04 and 0x04. -/
theorem claim_C2_counterexample :
    checksum ([0xFF, 0x01, 0x04, 0x04, 0xB0, 0x00, 0x00, 0x00] : List Nat)
        = 0x47 ∧
      Mhz19.co2 feedSerial
          (Mhz19.new
            (([], [0xFF, 0x01, 0x04, 0x04, 0xB0, 0x00, 0x00, 0x00, 0x47])
              : List Nat × List Nat))
        = .ok (1028,
            ⟨([0xFF, 0x01, 0x86, 0, 0, 0, 0, 0, 0x79], []),
              [0xFF, 0x01, 0x04, 0x04, 0xB0, 0x00, 0x00, 0x00, 0x47]⟩) ∧
      (1028 : Nat) ≠ 1200 := by
  refine ⟨by decide, by decide, by decide⟩

/-- Claim C2 (amended): for every checksum-valid 9-byte response frame, `co2`
returns the big-endian 16-bit value formed from the frame bytes at indices 2
(high) and 3 (low); the spec's vector carries 0x04, 0x04 there and decodes to
1028, while a frame carrying 0x04, 0xB0 at indices 2-3 decodes to 1200. -/
theorem claim_C2_amended (r : List Nat) (hlen : r.length = 9)
    (hb2 : r.getD 2 0 < 256) (hb3 : r.getD 3 0 < 256)
    (hvalid : checksum (r.take 8) = r.getD 8 0) :
    Mhz19.co2 feedSerial (Mhz19.new (([], r) : List Nat × List Nat))
        = .ok (r.getD 2 0 * 256 + r.getD 3 0,
            ⟨([0xFF, 0x01, 0x86, 0, 0, 0, 0, 0, 0x79], []), r⟩) ∧
      r.getD 2 0 * 256 + r.getD 3 0 < 65536 := by
  refine ⟨?_, by omega⟩
  rw [co2_feed r hlen, if_pos hvalid, beconcat _ _ hb3]

/-- Witness for the amended C2: the frame `FF 86 04 B0 00 00 00 00 C6`
(concentration bytes 0x04 0xB0 at indices 2-3) decodes to 1200 ppm. -/
theorem claim_C2_witness :
    Mhz19.co2 feedSerial
        (Mhz19.new (([], [0xFF, 0x86, 0x04, 0xB0, 0, 0, 0, 0, 0xC6])
          : List Nat × List Nat))
      = .ok (1200,
          ⟨([0xFF, 0x01, 0x86, 0, 0, 0, 0, 0, 0x79], []),
            [0xFF, 0x86, 0x04, 0xB0, 0, 0, 0, 0, 0xC6]⟩) :=
  ((claim_C2_amended [0xFF, 0x86, 0x04, 0xB0, 0, 0, 0, 0, 0xC6]
      (by decide) (by decide) (by decide) (by decide)).1).symm.trans (by decide)
    |>.symm

/-- Claim C5: for every opcode and 5-byte payload, the encoded frame passes
the decode step's checksum validation — the checksum recomputed over its
first 8 bytes equals its 9th byte — and `response` fed exactly that frame
accepts it and leaves the frame itself in the buffer. -/
theorem claim_C5_roundtrip (cmd d0 d1 d2 d3 d4 : Nat) :
    checksum ((buildFrame cmd [d0, d1, d2, d3, d4]).take 8)
        = (buildFrame cmd [d0, d1, d2, d3, d4]).getD 8 0 ∧
      Mhz19.response feedSerial
          (Mhz19.new (([], buildFrame cmd [d0, d1, d2, d3, d4])
            : List Nat × List Nat))
        = .ok ⟨([], []), buildFrame cmd [d0, d1, d2, d3, d4]⟩ := by
  have hval : checksum ((buildFrame cmd [d0, d1, d2, d3, d4]).take 8)
      = (buildFrame cmd [d0, d1, d2, d3, d4]).getD 8 0 := rfl
  refine ⟨hval, ?_⟩
  rw [response_feed_new (buildFrame cmd [d0, d1, d2, d3, d4]) rfl, if_pos hval]

/-- Claim C7: when all 9 reads succeed, validation fails with the checksum
error iff the recomputed checksum of the first 8 received bytes differs from
the 9th; a checksum-valid frame is accepted (and a Read error is impossible)
no matter what its start, address or command-echo bytes are. -/
theorem claim_C7_checksum_only (r : List Nat) (hlen : r.length = 9) :
    (Mhz19.response feedSerial (Mhz19.new (([], r) : List Nat × List Nat))
        = .error Errors.Checksum ↔ checksum (r.take 8) ≠ r.getD 8 0) ∧
      (Mhz19.response feedSerial (Mhz19.new (([], r) : List Nat × List Nat))
        = .ok ⟨([], []), r⟩ ↔ checksum (r.take 8) = r.getD 8 0) ∧
      Mhz19.response feedSerial (Mhz19.new (([], r) : List Nat × List Nat))
        ≠ .error Errors.Read := by
  rw [response_feed_new r hlen]
  by_cases hc : checksum (r.take 8) = r.getD 8 0
  · rw [if_pos hc]
    exact ⟨iff_of_false (by simp) (fun h => h hc), iff_of_true rfl hc, by simp⟩
  · rw [if_neg hc]
    exact ⟨iff_of_true rfl hc, iff_of_false (by simp) hc, by simp⟩

/-- Witness for C7: the checksum-valid frame `00 02 33 00 00 00 00 00 CA` is
accepted although its start byte is not 0xFF, its address byte is not 0x01,
and its command-echo byte 0x33 matches none of the five opcodes. -/
theorem claim_C7_witness :
    Mhz19.response feedSerial
        (Mhz19.new (([], [0x00, 0x02, 0x33, 0, 0, 0, 0, 0, 0xCA])
          : List Nat × List Nat))
        = .ok ⟨([], []), [0x00, 0x02, 0x33, 0, 0, 0, 0, 0, 0xCA]⟩ ∧
      (0x00 : Nat) ≠ 0xFF ∧ (0x02 : Nat) ≠ 0x01 ∧
      (0x33 : Nat) ≠ 0x86 ∧ (0x33 : Nat) ≠ 0x87 ∧ (0x33 : Nat) ≠ 0x88 ∧
      (0x33 : Nat) ≠ 0x79 ∧ (0x33 : Nat) ≠ 0x99 :=
  ⟨((claim_C7_checksum_only _ (by decide)).2.1).mpr (by decide),
    by decide, by decide, by decide, by decide, by decide, by decide,
    by decide⟩

/-- Claim C6: for every checksum-valid 9-byte frame, flipping any single bit
of any one of the 9 bytes (with no compensating change elsewhere) yields a
frame that `response` rejects with the checksum error. -/
theorem claim_C6_bitflip (l : List Nat) (hlen : l.length = 9)
    (hb : ∀ b ∈ l, b < 256)
    (hvalid : checksum (l.take 8) = l.getD 8 0)
    (j i : Nat) (hj : j < 9) (hi : i < 8) :
    Mhz19.response feedSerial
        (Mhz19.new (([], l.set j (l.getD j 0 ^^^ 2 ^ i)) : List Nat × List Nat))
      = .error Errors.Checksum := by
  have hlen' : (l.set j (l.getD j 0 ^^^ 2 ^ i)).length = 9 := by
    rw [List.length_set]; exact hlen
  suffices hne : checksum ((l.set j (l.getD j 0 ^^^ 2 ^ i)).take 8)
      ≠ (l.set j (l.getD j 0 ^^^ 2 ^ i)).getD 8 0 by
    rw [response_feed_new _ hlen', if_neg hne]
  rcases l with _ | ⟨b0, l⟩; · simp at hlen
  rcases l with _ | ⟨b1, l⟩; · simp at hlen
  rcases l with _ | ⟨b2, l⟩; · simp at hlen
  rcases l with _ | ⟨b3, l⟩; · simp at hlen
  rcases l with _ | ⟨b4, l⟩; · simp at hlen
  rcases l with _ | ⟨b5, l⟩; · simp at hlen
  rcases l with _ | ⟨b6, l⟩; · simp at hlen
  rcases l with _ | ⟨b7, l⟩; · simp at hlen
  rcases l with _ | ⟨b8, l⟩; · simp at hlen
  rcases l with _ | ⟨b9, l⟩
  swap
  · simp only [List.length_cons] at hlen; omega
  have h0 : b0 < 256 := hb _ (by simp)
  have h1 : b1 < 256 := hb _ (by simp)
  have h2 : b2 < 256 := hb _ (by simp)
  have h3 : b3 < 256 := hb _ (by simp)
  have h4 : b4 < 256 := hb _ (by simp)
  have h5 : b5 < 256 := hb _ (by simp)
  have h6 : b6 < 256 := hb _ (by simp)
  have h7 : b7 < 256 := hb _ (by simp)
  have h8 : b8 < 256 := hb _ (by simp)
  have hv : checksum [b0, b1, b2, b3, b4, b5, b6, b7] = b8 := hvalid
  interval_cases j
  · show checksum [b0 ^^^ 2 ^ i, b1, b2, b3, b4, b5, b6, b7] ≠ b8
    have hx := xor_two_pow_ne b0 i
    have hxlt := xor_byte_lt b0 i h0 hi
    rw [checksum_eq_sub] at hv ⊢
    simp only [List.sum_cons, List.sum_nil] at hv ⊢
    set c := b0 ^^^ 2 ^ i with hc
    omega
  · show checksum [b0, b1 ^^^ 2 ^ i, b2, b3, b4, b5, b6, b7] ≠ b8
    have hx := xor_two_pow_ne b1 i
    have hxlt := xor_byte_lt b1 i h1 hi
    rw [checksum_eq_sub] at hv ⊢
    simp only [List.sum_cons, List.sum_nil] at hv ⊢
    set c := b1 ^^^ 2 ^ i with hc
    omega
  · show checksum [b0, b1, b2 ^^^ 2 ^ i, b3, b4, b5, b6, b7] ≠ b8
    have hx := xor_two_pow_ne b2 i
    have hxlt := xor_byte_lt b2 i h2 hi
    rw [checksum_eq_sub] at hv ⊢
    simp only [List.sum_cons, List.sum_nil] at hv ⊢
    set c := b2 ^^^ 2 ^ i with hc
    omega
  · show checksum [b0, b1, b2, b3 ^^^ 2 ^ i, b4, b5, b6, b7] ≠ b8
    have hx := xor_two_pow_ne b3 i
    have hxlt := xor_byte_lt b3 i h3 hi
    rw [checksum_eq_sub] at hv ⊢
    simp only [List.sum_cons, List.sum_nil] at hv ⊢
    set c := b3 ^^^ 2 ^ i with hc
    omega
  · show checksum [b0, b1, b2, b3, b4 ^^^ 2 ^ i, b5, b6, b7] ≠ b8
    have hx := xor_two_pow_ne b4 i
    have hxlt := xor_byte_lt b4 i h4 hi
    rw [checksum_eq_sub] at hv ⊢
    simp only [List.sum_cons, List.sum_nil] at hv ⊢
    set c := b4 ^^^ 2 ^ i with hc
    omega
  · show checksum [b0, b1, b2, b3, b4, b5 ^^^ 2 ^ i, b6, b7] ≠ b8
    have hx := xor_two_pow_ne b5 i
    have hxlt := xor_byte_lt b5 i h5 hi
    rw [checksum_eq_sub] at hv ⊢
    simp only [List.sum_cons, List.sum_nil] at hv ⊢
    set c := b5 ^^^ 2 ^ i with hc
    omega
  · show checksum [b0, b1, b2, b3, b4, b5, b6 ^^^ 2 ^ i, b7] ≠ b8
    have hx := xor_two_pow_ne b6 i
    have hxlt := xor_byte_lt b6 i h6 hi
    rw [checksum_eq_sub] at hv ⊢
    simp only [List.sum_cons, List.sum_nil] at hv ⊢
    set c := b6 ^^^ 2 ^ i with hc
    omega
  · show checksum [b0, b1, b2, b3, b4, b5, b6, b7 ^^^ 2 ^ i] ≠ b8
    have hx := xor_two_pow_ne b7 i
    have hxlt := xor_byte_lt b7 i h7 hi
    rw [checksum_eq_sub] at hv ⊢
    simp only [List.sum_cons, List.sum_nil] at hv ⊢
    set c := b7 ^^^ 2 ^ i with hc
    omega
  · show checksum [b0, b1, b2, b3, b4, b5, b6, b7] ≠ b8 ^^^ 2 ^ i
    have hx := xor_two_pow_ne b8 i
    rw [hv]
    exact hx.symm

/-- Witness for C6: flipping bit 0 of the command byte of the valid frame
`FF 01 86 00 00 00 00 00 79` makes validation fail. -/
theorem claim_C6_witness :
    Mhz19.response feedSerial
        (Mhz19.new (([],
          ([0xFF, 0x01, 0x86, 0, 0, 0, 0, 0, 0x79] : List Nat).set 2
            (([0xFF, 0x01, 0x86, 0, 0, 0, 0, 0, 0x79] : List Nat).getD 2 0
              ^^^ 2 ^ 0)) : List Nat × List Nat))
      = .error Errors.Checksum :=
  claim_C6_bitflip [0xFF, 0x01, 0x86, 0, 0, 0, 0, 0, 0x79]
    (by decide) (by decide) (by decide) 2 0 (by decide) (by decide)

end MhZ19
